import Mathlib

/-
Shallow embedding of the pyfires fire-detection code (PYF_detection.py and
PYF_basic.py).  Grids are modelled per pixel: array cells become rational
numbers, NaN cells become `none` in `Option ℚ` where NaN semantics matter,
and the pointwise `xr.where` / `np.where` operations become `if` terms.
Floating-point arithmetic is modelled by exact rational arithmetic; division
by zero yields 0 in this model (the float code yields inf or NaN there, which
is noted at every place where it matters).  `PYF_Consts.py` is not part of
the repository; every constant taken from it is defined here with the default
value documented in the docstrings of PYF_detection.py.
-/

namespace PYFires

/-- Threshold base for the MIR brightness temperature test.
Default documented in set_initial_thresholds: 310.5 K. -/
def mir_thresh_bt : ℚ := 621 / 2

/-- SZA adjustment slope for the MIR threshold: -0.3 K/deg. -/
def mir_thresh_sza_adj : ℚ := -3 / 10

/-- Minimum acceptable MIR BT threshold: 280 K. -/
def mir_thresh_limit : ℚ := 280

/-- Threshold base for the BTD test: 1.75 K. -/
def btd_thresh_bt : ℚ := 7 / 4

/-- SZA adjustment slope for the BTD threshold: -0.0049 K/deg. -/
def btd_thresh_sza_adj : ℚ := -49 / 10000

/-- Minimum acceptable BTD threshold: 1 K. -/
def btd_thresh_limit : ℚ := 1

/-- Kernel BTD threshold from stage1_tests: 1.5 K. -/
def kern_thresh_btd : ℚ := 3 / 2

/-- Kernel BTD threshold SZA adjustment: -0.012 K/deg. -/
def kern_thresh_sza_adj : ℚ := -12 / 1000

/-- Land value of the land-sea mask (docstring of stage1_tests: 2 = land). -/
def lsm_land_val : ℚ := 2

/-- One adjusted threshold of set_initial_thresholds (PYF_detection.py
lines 101-104): thresh = base + adj * sza, then
xr.where(thresh < limit, limit, thresh). -/
def adj_thresh (sza bt adj lim : ℚ) : ℚ :=
  let t := bt + adj * sza
  if t < lim then lim else t

/-- Per-pixel embedding of set_initial_thresholds (PYF_detection.py lines
82-106): returns the pair (mir_thresh, btd_thresh). -/
def set_initial_thresholds (sza mbt madj mlim bbt badj blim : ℚ) : ℚ × ℚ :=
  (adj_thresh sza mbt madj mlim, adj_thresh sza bbt badj blim)

/-- Literal transcription of the 3x3 array of _make_kern (PYF_detection.py
lines 37-40). -/
def kern3 : List (List ℚ) :=
  [[-1, -1, -1],
   [-1, 9, -1],
   [-1, -1, -1]]

/-- Literal transcription of the 5x5 array of _make_kern (lines 41-46). -/
def kern5 : List (List ℚ) :=
  [[-1, -1, -1, -1, -1],
   [-1, -1, -1, -1, -1],
   [-1, -1, 25, -1, -1],
   [-1, -1, -1, -1, -1],
   [-1, -1, -1, -1, -1]]

/-- Literal transcription of the 7x7 array of _make_kern (lines 47-54). -/
def kern7 : List (List ℚ) :=
  [[-1, -1, -1, -1, -1, -1, -1],
   [-1, -1, -1, -1, -1, -1, -1],
   [-1, -1, -1, -1, -1, -1, -1],
   [-1, -1, -1, 49, -1, -1, -1],
   [-1, -1, -1, -1, -1, -1, -1],
   [-1, -1, -1, -1, -1, -1, -1],
   [-1, -1, -1, -1, -1, -1, -1]]

/-- Literal transcription of the 9x9 array of _make_kern (lines 55-64). -/
def kern9 : List (List ℚ) :=
  [[-1, -1, -1, -1, -1, -1, -1, -1, -1],
   [-1, -1, -1, -1, -1, -1, -1, -1, -1],
   [-1, -1, -1, -1, -1, -1, -1, -1, -1],
   [-1, -1, -1, -1, -1, -1, -1, -1, -1],
   [-1, -1, -1, -1, 81, -1, -1, -1, -1],
   [-1, -1, -1, -1, -1, -1, -1, -1, -1],
   [-1, -1, -1, -1, -1, -1, -1, -1, -1],
   [-1, -1, -1, -1, -1, -1, -1, -1, -1],
   [-1, -1, -1, -1, -1, -1, -1, -1, -1]]

/-- Literal transcription of the 11x11 array of _make_kern (lines 65-76). -/
def kern11 : List (List ℚ) :=
  [[-1, -1, -1, -1, -1, -1, -1, -1, -1, -1, -1],
   [-1, -1, -1, -1, -1, -1, -1, -1, -1, -1, -1],
   [-1, -1, -1, -1, -1, -1, -1, -1, -1, -1, -1],
   [-1, -1, -1, -1, -1, -1, -1, -1, -1, -1, -1],
   [-1, -1, -1, -1, -1, -1, -1, -1, -1, -1, -1],
   [-1, -1, -1, -1, -1, 121, -1, -1, -1, -1, -1],
   [-1, -1, -1, -1, -1, -1, -1, -1, -1, -1, -1],
   [-1, -1, -1, -1, -1, -1, -1, -1, -1, -1, -1],
   [-1, -1, -1, -1, -1, -1, -1, -1, -1, -1, -1],
   [-1, -1, -1, -1, -1, -1, -1, -1, -1, -1, -1],
   [-1, -1, -1, -1, -1, -1, -1, -1, -1, -1, -1]]

/-- np.sum over a 2-D array: the sum of all entries. -/
def matSum (m : List (List ℚ)) : ℚ := (m.map fun r => r.sum).sum

/-- Sum of the absolute values of all entries (used only to state the claim
that _make_kern divides by the sum of the absolute weights). -/
def matAbsSum (m : List (List ℚ)) : ℚ := (m.map fun r => (r.map (|·|)).sum).sum

/-- Entrywise division of a 2-D array by a scalar, arr / np.sum(arr). -/
def matDiv (m : List (List ℚ)) (d : ℚ) : List (List ℚ) :=
  m.map fun r => r.map fun x => x / d

/-- Embedding of _make_kern (PYF_detection.py lines 30-79): returns the
per-size array divided by its sum; unsupported sizes raise ValueError,
modelled as none. -/
def _make_kern (ksize : ℕ) : Option (List (List ℚ)) :=
  if ksize = 3 then some (matDiv kern3 (matSum kern3))
  else if ksize = 5 then some (matDiv kern5 (matSum kern5))
  else if ksize = 7 then some (matDiv kern7 (matSum kern7))
  else if ksize = 9 then some (matDiv kern9 (matSum kern9))
  else if ksize = 11 then some (matDiv kern11 (matSum kern11))
  else none

/-- Spec-side description of the stencil for size n: value n^2 at the center
cell and -1 at every other cell. -/
def stencil (n : ℕ) : List (List ℚ) :=
  (List.range n).map fun i => (List.range n).map fun j =>
    if i = n / 2 ∧ j = n / 2 then (n : ℚ) * n else -1

/-- Modelled from the spec: PYF_Consts.sigma, the Stefan-Boltzmann constant
(the constants file is not part of the repository).  Value
5.670374419e-8 W m^-2 K^-4. -/
def sigma : ℚ := 5670374419 / 10 ^ 17

/-- Per-pixel embedding of calc_frp (PYF_basic.py lines 478-493):
frp_est = (pix_area * sigma / a_val) * (MIR__BT - mean_mir), then
xr.where(mean_mir > 0, frp_est, 0) and xr.where(fire_dets > 0, frp_est, 0).
a_val is the per-platform sensor constant rad_to_bt_dict[platform]. -/
def calc_frp (pix_area sig a_val mir_bt mean_mir fire_dets : ℚ) : ℚ :=
  let frp_est := pix_area * sig / a_val * (mir_bt - mean_mir)
  let frp_est1 := if 0 < mean_mir then frp_est else 0
  if 0 < fire_dets then frp_est1 else 0

/-- NaN-aware comparison a >= b of two cells: any comparison with an invalid
cell (NaN, modelled as none) is false, as in IEEE arithmetic. -/
def nanGe (a b : Option ℚ) : Bool :=
  match a, b with
  | some x, some y => decide (y ≤ x)
  | _, _ => false

/-- NaN-aware equality test a == b: false when either side is invalid. -/
def nanEq (a b : Option ℚ) : Bool :=
  match a, b with
  | some x, some y => decide (x = y)
  | _, _ => false

/-- NaN-propagating lift of a binary arithmetic operation. -/
def optBin (f : ℚ → ℚ → ℚ) : Option ℚ → Option ℚ → Option ℚ
  | some x, some y => some (f x y)
  | _, _ => none

/-- NaN-propagating addition. -/
def optAdd : Option ℚ → Option ℚ → Option ℚ := optBin (· + ·)

/-- NaN-propagating subtraction. -/
def optSub : Option ℚ → Option ℚ → Option ℚ := optBin (· - ·)

/-- NaN-propagating multiplication. -/
def optMul : Option ℚ → Option ℚ → Option ℚ := optBin (· * ·)

/-- MIR threshold used by stage1_tests: set_initial_thresholds(in_sza) with
the default constants, lifted over NaN cells (a NaN sza yields a NaN
threshold, since NaN < limit is false in xr.where). -/
def mir_thresh_opt (sza : Option ℚ) : Option ℚ :=
  sza.map fun s =>
    (set_initial_thresholds s mir_thresh_bt mir_thresh_sza_adj mir_thresh_limit
      btd_thresh_bt btd_thresh_sza_adj btd_thresh_limit).1

/-- BTD threshold used by stage1_tests, as mir_thresh_opt. -/
def btd_thresh_opt (sza : Option ℚ) : Option ℚ :=
  sza.map fun s =>
    (set_initial_thresholds s mir_thresh_bt mir_thresh_sza_adj mir_thresh_limit
      btd_thresh_bt btd_thresh_sza_adj btd_thresh_limit).2

/-- Kernel vote count of stage1_tests (PYF_detection.py lines 158-161) at one
pixel.  The convolved values kerval and the global standard deviations stdval
produced by do_apply_stg1b_kern2 for each kernel size are spatial quantities
and enter the per-pixel embedding as inputs; the loop adds 1 to the counter
for every kernel size whose test kerval >= stdval * btd_kern_thr passes,
where btd_kern_thr = kern_thresh_btd + kern_thresh_sza_adj * sza. -/
def kern_votes (kervals stdvals : List (Option ℚ)) (sza : Option ℚ) : ℕ :=
  let kthr := optAdd (some kern_thresh_btd) (optMul (some kern_thresh_sza_adj) sza)
  (kervals.zip stdvals).countP fun p => nanGe p.1 (optMul p.2 kthr)

/-- Counter after the MIR gate (line 163):
xr.where(in_mir >= mir_thresh, main_testarr + 1, 0). -/
def counter_mir (kervals stdvals : List (Option ℚ)) (mir sza : Option ℚ) : ℕ :=
  if nanGe mir (mir_thresh_opt sza) then kern_votes kervals stdvals sza + 1 else 0

/-- Counter after the BTD gate (line 164):
xr.where(in_btd >= btd_thresh, main_testarr + 1, 0). -/
def counter_btd (kervals stdvals : List (Option ℚ)) (mir btd sza : Option ℚ) : ℕ :=
  if nanGe btd (btd_thresh_opt sza) then
    counter_mir kervals stdvals mir sza + 1
  else 0

/-- Counter after the optional land-sea mask (lines 167-168):
xr.where(in_lsm == lsm_land_val, main_testarr, 0). -/
def counter_lsm (kervals stdvals : List (Option ℚ)) (mir btd sza lsm : Option ℚ)
    (do_lsm_mask : Bool) : ℕ :=
  if do_lsm_mask then
    if nanEq lsm (some lsm_land_val) then counter_btd kervals stdvals mir btd sza
    else 0
  else counter_btd kervals stdvals mir btd sza

/-- Counter after the VIS-difference test (line 171):
xr.where(in_vid >= 0, main_testarr, 0). -/
def counter_vid (kervals stdvals : List (Option ℚ)) (mir btd vid sza lsm : Option ℚ)
    (do_lsm_mask : Bool) : ℕ :=
  if nanGe vid (some 0) then counter_lsm kervals stdvals mir btd sza lsm do_lsm_mask
  else 0

/-- Per-pixel embedding of stage1_tests (PYF_detection.py lines 125-178): the
uint8 candidate mask value, xr.where(main_testarr >= stage1_pass_thresh, 1, 0).
The pass threshold lives in the absent PYF_Consts.py and is kept as a
parameter; per the spec it is the number of tests required. -/
def stage1_tests (kervals stdvals : List (Option ℚ)) (mir btd vid sza lsm : Option ℚ)
    (do_lsm_mask : Bool) (pass_thresh : ℕ) : ℕ :=
  if pass_thresh ≤ counter_vid kervals stdvals mir btd vid sza lsm do_lsm_mask then 1
  else 0

/-- The MIR threshold of stage1_tests at a valid sza value. -/
def stage1_mir_thresh (s : ℚ) : ℚ :=
  (set_initial_thresholds s mir_thresh_bt mir_thresh_sza_adj mir_thresh_limit
    btd_thresh_bt btd_thresh_sza_adj btd_thresh_limit).1

/-- The BTD threshold of stage1_tests at a valid sza value. -/
def stage1_btd_thresh (s : ℚ) : ℚ :=
  (set_initial_thresholds s mir_thresh_bt mir_thresh_sza_adj mir_thresh_limit
    btd_thresh_bt btd_thresh_sza_adj btd_thresh_limit).2

/-- np.where(np.isfinite(x), x, 0): an invalid cell is replaced by 0. -/
def finite_or_zero (x : Option ℚ) : Option ℚ := some (x.getD 0)

/-- Embedding of compute_fire_datasets lines 164-166 at one pixel:
mir_diffrad = MIR_RAD - exp_rad, then np.where(isfinite, mir_diffrad, 0).
exp_rad is calc_rad_fromtb(LW1__BT, wvl), entering as an input. -/
def mir_diffrad (mir_rad exp_rad : Option ℚ) : Option ℚ :=
  finite_or_zero (optSub mir_rad exp_rad)

/-- comp_stat (PYF_basic.py lines 409-414), the stage 5 ramp:
out = (x - a) / (b - a), then xr.where(x < a, 0, out) and
xr.where(x > b, 1, out). -/
def comp_stat (x a b : ℚ) : ℚ :=
  let out := (x - a) / (b - a)
  let out1 := if x < a then 0 else out
  if b < x then 1 else out1

/-- Clipped SZA of do_stage5: sza_thr = xr.where(sza > nig_sza, nig_sza, sza)
with nig_sza = 60. -/
def sza_clip (sza : ℚ) : ℚ := if 60 < sza then 60 else sza

/-- min_c1 = min_c1_day + (min_c1_nig - min_c1_day) / nig_sza * sza_thr with
day bound 287, night bound 280. -/
def stage5_min_c1 (sza : ℚ) : ℚ := 287 + (280 - 287) / 60 * sza_clip sza

/-- max_c1 interpolated between day 327 and night 310. -/
def stage5_max_c1 (sza : ℚ) : ℚ := 327 + (310 - 327) / 60 * sza_clip sza

/-- min_c3 interpolated between day 2 and night 1.5. -/
def stage5_min_c3 (sza : ℚ) : ℚ := 2 + (3 / 2 - 2) / 60 * sza_clip sza

/-- max_c3 interpolated between day 6 and night 5. -/
def stage5_max_c3 (sza : ℚ) : ℚ := 6 + (5 - 6) / 60 * sza_clip sza

/-- Component c1 of do_stage5: ramp of the MIR BT between the interpolated
bounds. -/
def stage5_c1 (bt_mir sza : ℚ) : ℚ :=
  comp_stat bt_mir (stage5_min_c1 sza) (stage5_max_c1 sza)

/-- Component c2: ramp of the MIR z-score z4 = (bt_mir - mea_mir) / std_mir
between min_c2 = 0.9 and max_c2 = 6. -/
def stage5_c2 (bt_mir mea_mir std_mir : ℚ) : ℚ :=
  comp_stat ((bt_mir - mea_mir) / std_mir) (9 / 10) 6

/-- Component c3: ramp of the BTD z-score zdt = (btd - mea_btd) / std_btd
between the interpolated bounds. -/
def stage5_c3 (btd mea_btd std_btd sza : ℚ) : ℚ :=
  comp_stat ((btd - mea_btd) / std_btd) (stage5_min_c3 sza) (stage5_max_c3 sza)

/-- Component c4 = 1 - comp_stat(ncld / (nwin / 2), 0, 1). -/
def stage5_c4 (ncld nwin : ℚ) : ℚ := 1 - comp_stat (ncld / (nwin / 2)) 0 1

/-- Component c5 = 1 - comp_stat(nwat / (nwin / 2), 0, 1). -/
def stage5_c5 (nwat nwin : ℚ) : ℚ := 1 - comp_stat (nwat / (nwin / 2)) 0 1

/-- Product c1*c2*c3*c4*c5 of do_stage5 (PYF_basic.py line 464). -/
def stage5_prod (btd mea_btd std_btd bt_mir mea_mir std_mir sza nwin ncld nwat : ℚ) : ℚ :=
  stage5_c1 bt_mir sza * stage5_c2 bt_mir mea_mir std_mir *
  stage5_c3 btd mea_btd std_btd sza * stage5_c4 ncld nwin * stage5_c5 nwat nwin

/-- Embedding of do_stage5 (PYF_basic.py lines 417-466): the per-pixel
confidence np.power(c1*c2*c3*c4*c5, 1/5), as a real power.  Divisions by
zero (std = 0 or the nwin = 0 sentinel) yield 0 in this exact model where
the float code yields inf or NaN. -/
noncomputable def do_stage5 (btd mea_btd std_btd bt_mir mea_mir std_mir sza nwin ncld nwat : ℚ) : ℝ :=
  (stage5_prod btd mea_btd std_btd bt_mir mea_mir std_mir sza nwin ncld nwat : ℝ) ^ ((1:ℝ) / 5)

/-- Modelled from the spec: the clipped linear ramp
comp_stat(x,a,b) = clip((x-a)/(b-a), 0, 1) used to state the refinement
between the code's comp_stat and the spec's description. -/
def clip_ramp (x a b : ℚ) : ℚ := max 0 (min 1 ((x - a) / (b - a)))

/-- Night and positive-radiance selection of compute_background_rad
(PYF_detection.py lines 199-205): the radiances of the pixels with
sza > sza_thr, then only the strictly positive values.  A flattened scene is
a list of (radiance, sza) pairs. -/
def night_positive (data : List (ℚ × ℚ)) (sza_thr : ℚ) : List ℚ :=
  ((data.filter fun p => sza_thr < p.2).map Prod.fst).filter fun x => 0 < x

/-- Bin index of np.histogram(tmp, bins=800, range=(0, 2)): values outside
[0, 2] are dropped; bin i covers [i/400, (i+1)/400), the last bin closed. -/
def bin_idx (x : ℚ) : Option ℕ :=
  if 0 ≤ x ∧ x ≤ 2 then some (min (Int.toNat ⌊400 * x⌋) 799) else none

/-- Count of the values falling in bin i. -/
def hist_count (l : List ℚ) (i : ℕ) : ℕ := l.countP fun x => bin_idx x == some i

/-- np.sum(hist): the total number of binned values. -/
def hist_total (l : List ℚ) : ℕ := ((List.range 800).map (hist_count l)).sum

/-- Normalized frequency of bin i, hist = hist / np.sum(hist).  When the
total is 0 every frequency is 0 here (the float code produces NaN and takes
the sentinel branch, as does this model through the max test). -/
def hist_freq (l : List ℚ) (i : ℕ) : ℚ := (hist_count l i : ℚ) / (hist_total l : ℚ)

/-- The normalized 800-bin histogram as a list. -/
def hist_list (l : List ℚ) : List ℚ := (List.range 800).map (hist_freq l)

/-- The cumulative-sum loop of compute_background_rad (lines 214-219):
starting from index i and accumulator cum, add each bin frequency in turn and
stop at the first index whose running sum exceeds thr; when no bin exceeds it
the Python loop ends with i equal to the last index, modelled by the [] case
returning the predecessor of the running index. -/
def walkAux (thr : ℚ) : ℕ → ℚ → List ℚ → ℕ
  | i, _, [] => i - 1
  | i, cum, h :: t => if thr < cum + h then i else walkAux thr (i + 1) (cum + h) t

/-- Cumulative normalized frequency of bins 0..i (used to state the spec of
the walk). -/
def cum_freq (l : List ℚ) (i : ℕ) : ℚ := ∑ j in Finset.range (i + 1), hist_freq l j

/-- Embedding of compute_background_rad (PYF_detection.py lines 181-222) with
the default 800 bins over the range (0, 2), so bins[i] = i / 400; returns
the sentinel -999 when the histogram is degenerate
(np.nanmax(hist) <= 0 or NaN: no valid night-positive pixel in range). -/
def compute_background_rad (data : List (ℚ × ℚ)) (sza_thr rad_sum_thr : ℚ) : ℚ :=
  let tmp := night_positive data sza_thr
  let hist := hist_list tmp
  if hist.foldr max 0 ≤ 0 then -999
  else (walkAux rad_sum_thr 0 0 hist : ℚ) / 400

/-- The nine offsets of a 3x3 window. -/
def offsets3 : List (ℤ × ℤ) :=
  [(-1, -1), (-1, 0), (-1, 1), (0, -1), (0, 0), (0, 1), (1, -1), (1, 0), (1, 1)]

/-- The values of grid f in the 3x3 window centred at (i, j).  Grids are
modelled as functions on the unbounded plane, which matches the array code
away from the borders (the reflect border handling of the dask convolve and
maximum_filter is not modelled). -/
def win3 (f : ℤ → ℤ → ℚ) (i j : ℤ) : List ℚ :=
  offsets3.map fun d => f (i + d.1) (j + d.2)

/-- convolve(out_dets, np.ones((3, 3))) at one pixel: the 3x3 window sum. -/
def det_sum (dets : ℤ → ℤ → ℚ) (i j : ℤ) : ℚ := (win3 dets i j).sum

/-- maximum_filter(in_vid, (3, 3)) at one pixel: the 3x3 window maximum. -/
def det_max (vid : ℤ → ℤ → ℚ) (i j : ℤ) : ℚ :=
  (win3 vid i j).foldr max (vid i j)

/-- The 3x3 de-duplication step of run_basic_night_detection
(PYF_detection.py lines 276-283):
det_pos = xr.where(det_sum == 1, in_vid, 0);
det_pos = xr.where(det_pos == det_max, 1, 0);
out_dets = xr.where(det_sum == 1, det_pos, out_dets). -/
def dedup_step (vid dets : ℤ → ℤ → ℚ) (i j : ℤ) : ℚ :=
  let s := det_sum dets i j
  let det_pos : ℚ := if s = 1 then vid i j else 0
  let det_pos2 : ℚ := if det_pos = det_max vid i j then 1 else 0
  if s = 1 then det_pos2 else dets i j

/-- The opts dict of run_basic_night_detection. -/
structure NightOpts where
  def_fire_rad_vis : ℚ
  def_fire_rad_vid : ℚ
  sza_thresh : ℚ
  vid_thresh : ℚ

/-- The default opts of run_basic_night_detection:
def_fire_rad_vis = 0.5, def_fire_rad_vid = 0.5, sza_thresh = 97,
vid_thresh = 0.02. -/
def default_night_opts : NightOpts := ⟨1 / 2, 1 / 2, 97, 1 / 50⟩

/-- Return value of run_basic_night_detection: the two degenerate paths
return a single zero array np.zeros_like(in_vi2_rad); the normal path
returns the pair (out_dets, def_dets). -/
inductive NightResult where
  | single (mask : ℤ → ℤ → ℚ)
  | pair (out_dets def_dets : ℤ → ℤ → ℚ)

/-- All pixel coordinates of an r x c scene. -/
def grid_pixels (r c : ℕ) : List (ℤ × ℤ) :=
  (List.range r).flatMap fun a => (List.range c).map fun b => ((a : ℤ), (b : ℤ))

/-- The scene flattened to (radiance, sza) pixel pairs: the ravel step that
feeds compute_background_rad. -/
def grid_list (r c : ℕ) (f g : ℤ → ℤ → ℚ) : List (ℚ × ℚ) :=
  (grid_pixels r c).map fun p => (f p.1 p.2, g p.1 p.2)

/-- np.zeros_like as a grid. -/
def zero_grid : ℤ → ℤ → ℚ := fun _ _ => 0

/-- Embedding of run_basic_night_detection (PYF_detection.py lines 225-291).
The truthiness test np.nanmax(in_sza > sza_thresh) is the any-night test; the
histogram threshold uses the default cumulative fraction 0.99 and range
(0, 2); the per-pixel xr.where chains build def_dets and out_dets, dedup_step
is the 3x3 de-duplication, and both degenerate paths return a single
np.zeros_like array. -/
def run_basic_night_detection (r c : ℕ) (vi2 sza vid pfp : ℤ → ℤ → ℚ)
    (opts : NightOpts) : NightResult :=
  if (grid_pixels r c).any fun p => opts.sza_thresh < sza p.1 p.2 then
    let thr_vis := compute_background_rad (grid_list r c vi2 sza) opts.sza_thresh (99 / 100)
    if thr_vis = -999 then NightResult.single zero_grid
    else
      let def_dets : ℤ → ℤ → ℚ := fun i j =>
        let d0 : ℚ := if opts.def_fire_rad_vis < vi2 i j then 1 else 0
        let d1 : ℚ := if opts.def_fire_rad_vid < vid i j then d0 else 0
        if opts.sza_thresh < sza i j then d1 else 0
      let out0 : ℤ → ℤ → ℚ := fun i j =>
        let o0 : ℚ := if thr_vis * 2 < vi2 i j then 1 else 0
        let o1 : ℚ := if opts.vid_thresh < vid i j then o0 else 0
        if pfp i j = 1 then o1 else 0
      let out1 : ℤ → ℤ → ℚ := dedup_step vid out0
      let out2 : ℤ → ℤ → ℚ := fun i j => if 0 < def_dets i j then 1 else out1 i j
      let out3 : ℤ → ℤ → ℚ := fun i j => if opts.sza_thresh < sza i j then out2 i j else 0
      NightResult.pair out3 def_dets
  else NightResult.single zero_grid

theorem adj_thresh_eq_max (sza bt adj lim : ℚ) :
    adj_thresh sza bt adj lim = max lim (bt + adj * sza) := by
  unfold adj_thresh
  rcases lt_or_le (bt + adj * sza) lim with h | h
  · simp [h, max_eq_left h.le]
  · simp [not_lt.mpr h, max_eq_right h]

/-- C4: set_initial_thresholds returns mir_thresh = max(limit, base + adj*sza)
and btd_thresh likewise; each threshold is never below its configured floor,
and equals the floor exactly whenever the linear term falls below it. -/
theorem set_initial_thresholds_spec (sza mbt madj mlim bbt badj blim : ℚ) :
    (set_initial_thresholds sza mbt madj mlim bbt badj blim).1
        = max mlim (mbt + madj * sza) ∧
    (set_initial_thresholds sza mbt madj mlim bbt badj blim).2
        = max blim (bbt + badj * sza) ∧
    mlim ≤ (set_initial_thresholds sza mbt madj mlim bbt badj blim).1 ∧
    blim ≤ (set_initial_thresholds sza mbt madj mlim bbt badj blim).2 ∧
    (mbt + madj * sza < mlim →
      (set_initial_thresholds sza mbt madj mlim bbt badj blim).1 = mlim) ∧
    (bbt + badj * sza < blim →
      (set_initial_thresholds sza mbt madj mlim bbt badj blim).2 = blim) := by
  refine ⟨adj_thresh_eq_max .., adj_thresh_eq_max .., ?_, ?_, ?_, ?_⟩
  · rw [show (set_initial_thresholds sza mbt madj mlim bbt badj blim).1
        = adj_thresh sza mbt madj mlim from rfl, adj_thresh_eq_max]
    exact le_max_left _ _
  · rw [show (set_initial_thresholds sza mbt madj mlim bbt badj blim).2
        = adj_thresh sza bbt badj blim from rfl, adj_thresh_eq_max]
    exact le_max_left _ _
  · intro h
    rw [show (set_initial_thresholds sza mbt madj mlim bbt badj blim).1
        = adj_thresh sza mbt madj mlim from rfl, adj_thresh_eq_max]
    exact max_eq_left h.le
  · intro h
    rw [show (set_initial_thresholds sza mbt madj mlim bbt badj blim).2
        = adj_thresh sza bbt badj blim from rfl, adj_thresh_eq_max]
    exact max_eq_left h.le

/-- Witness for C4: with the default constants and sza = 200 deg, the MIR
linear term 310.5 - 0.3*200 = 250.5 is below the 280 K floor, so the
returned threshold is exactly the floor. -/
theorem set_initial_thresholds_spec_witness :
    mir_thresh_bt + mir_thresh_sza_adj * 200 < mir_thresh_limit ∧
    (set_initial_thresholds 200 mir_thresh_bt mir_thresh_sza_adj
      mir_thresh_limit btd_thresh_bt btd_thresh_sza_adj btd_thresh_limit).1
      = mir_thresh_limit := by
  refine ⟨by norm_num [mir_thresh_bt, mir_thresh_sza_adj, mir_thresh_limit], ?_⟩
  exact (set_initial_thresholds_spec 200 mir_thresh_bt mir_thresh_sza_adj
    mir_thresh_limit btd_thresh_bt btd_thresh_sza_adj btd_thresh_limit).2.2.2.2.1
    (by norm_num [mir_thresh_bt, mir_thresh_sza_adj, mir_thresh_limit])

/-- C3 counterexample: the claim states that _make_kern divides the stencil
by the sum of the ABSOLUTE weights (17 for size 3); the code divides by the
plain sum np.sum(arr), which is 1, so the size-3 result differs from the
claimed array (center 9 versus 9/17). -/
theorem make_kern_not_abs_normalized :
    _make_kern 3 ≠ some (matDiv kern3 (matAbsSum kern3)) ∧
    matAbsSum kern3 = 17 := by
  constructor
  · norm_num [_make_kern, matDiv, matSum, matAbsSum, kern3]
  · norm_num [matAbsSum, kern3]

/-- C3 amended: for every supported size n in {3,5,7,9,11}, _make_kern
returns the stencil with n^2 at the center and -1 elsewhere divided by the
plain sum of the weights; that sum is 1, so the normalized kernel equals the
stencil itself and its entries sum to exactly 1. -/
theorem make_kern_spec :
    (_make_kern 3 = some kern3 ∧ kern3 = stencil 3 ∧ matSum kern3 = 1) ∧
    (_make_kern 5 = some kern5 ∧ kern5 = stencil 5 ∧ matSum kern5 = 1) ∧
    (_make_kern 7 = some kern7 ∧ kern7 = stencil 7 ∧ matSum kern7 = 1) ∧
    (_make_kern 9 = some kern9 ∧ kern9 = stencil 9 ∧ matSum kern9 = 1) ∧
    (_make_kern 11 = some kern11 ∧ kern11 = stencil 11 ∧ matSum kern11 = 1) := by
  refine ⟨⟨?_, ?_, ?_⟩, ⟨?_, ?_, ?_⟩, ⟨?_, ?_, ?_⟩, ⟨?_, ?_, ?_⟩, ?_, ?_, ?_⟩ <;>
    norm_num [_make_kern, matDiv, matSum, stencil, List.range_succ,
      kern3, kern5, kern7, kern9, kern11]

/-- C5: the FRP estimate is the radiometric formula
pix_area * sigma / a_val * (mir_bt - mean_mir) wherever both gates pass, and
is exactly 0 wherever the fire mask is 0 or the background MIR mean is
non-positive. -/
theorem calc_frp_spec (pa sig a bt mm fd : ℚ) :
    (fd = 0 → calc_frp pa sig a bt mm fd = 0) ∧
    (mm ≤ 0 → calc_frp pa sig a bt mm fd = 0) ∧
    (0 < fd → 0 < mm → calc_frp pa sig a bt mm fd = pa * sig / a * (bt - mm)) := by
  unfold calc_frp
  refine ⟨?_, ?_, ?_⟩
  · intro h
    simp [h]
  · intro h
    simp [not_lt.mpr h]
  · intro h1 h2
    simp [h1, h2]

/-- Witness for C5: a masked-out pixel yields 0 and an active pixel with a
positive background mean yields the formula value. -/
theorem calc_frp_spec_witness :
    ((0:ℚ) ≤ 0 ∧ calc_frp 1 sigma 2 300 0 1 = 0) ∧
    ((0:ℚ) < 1 ∧ (0:ℚ) < 300 ∧
      calc_frp 1 sigma 2 320 300 1 = 1 * sigma / 2 * (320 - 300)) :=
  ⟨⟨le_refl 0, (calc_frp_spec 1 sigma 2 300 0 1).2.1 (le_refl 0)⟩,
   by norm_num, by norm_num,
   (calc_frp_spec 1 sigma 2 320 300 1).2.2 (by norm_num) (by norm_num)⟩

/-- C10: calc_frp does not clamp the estimate to non-negative values: with
fire_dets = 1 > 0, mean_mir = 300 > 0 and MIR__BT = 200 < 300, the returned
FRP is strictly negative. -/
theorem calc_frp_negative :
    (0:ℚ) < 1 ∧ (0:ℚ) < 300 ∧ (200:ℚ) < 300 ∧
    calc_frp 1 sigma 1 200 300 1 < 0 := by
  refine ⟨by norm_num, by norm_num, by norm_num, ?_⟩
  norm_num [calc_frp, sigma]

theorem counter_btd_le (kervals stdvals : List (Option ℚ)) (mir btd sza : Option ℚ) :
    counter_btd kervals stdvals mir btd sza
      ≤ counter_mir kervals stdvals mir sza + 1 := by
  unfold counter_btd
  split
  · exact le_refl _
  · exact Nat.zero_le _

theorem counter_lsm_le (kervals stdvals : List (Option ℚ))
    (mir btd sza lsm : Option ℚ) (dm : Bool) :
    counter_lsm kervals stdvals mir btd sza lsm dm
      ≤ counter_btd kervals stdvals mir btd sza := by
  unfold counter_lsm
  split
  · split
    · exact le_refl _
    · exact Nat.zero_le _
  · exact le_refl _

theorem counter_vid_le (kervals stdvals : List (Option ℚ))
    (mir btd vid sza lsm : Option ℚ) (dm : Bool) :
    counter_vid kervals stdvals mir btd vid sza lsm dm
      ≤ counter_lsm kervals stdvals mir btd sza lsm dm := by
  unfold counter_vid
  split
  · exact le_refl _
  · exact Nat.zero_le _

/-- If the counter is at most 1 after the two threshold gates, a pass
threshold of at least 2 keeps the pixel out of the candidate mask. -/
theorem stage1_zero_of_counter_btd_le_one (kervals stdvals : List (Option ℚ))
    (mir btd vid sza lsm : Option ℚ) (dm : Bool) (p : ℕ) (hp : 2 ≤ p)
    (h : counter_btd kervals stdvals mir btd sza ≤ 1) :
    stage1_tests kervals stdvals mir btd vid sza lsm dm p = 0 := by
  unfold stage1_tests
  have h1 := counter_vid_le kervals stdvals mir btd vid sza lsm dm
  have h2 := counter_lsm_le kervals stdvals mir btd sza lsm dm
  rw [if_neg]
  omega

theorem counter_mir_none (kervals stdvals : List (Option ℚ)) (sza : Option ℚ) :
    counter_mir kervals stdvals none sza = 0 := by
  unfold counter_mir
  rw [if_neg]
  simp [nanGe]

/-- C1: the MIR and BTD fixed-threshold tests of stage1_tests are hard gates,
not votes: at any pixel where mir_bt < mir_thresh or btd < btd_thresh the
counter is reset to 0 and the pixel cannot appear in the candidate mask, no
matter how many kernel tests it passed; each passing test adds 1 to the
counter. -/
theorem stage1_hard_gate (kervals stdvals : List (Option ℚ)) (vid lsm : Option ℚ)
    (do_lsm_mask : Bool) (m b s : ℚ) (p : ℕ) (hp : 2 ≤ p) :
    ((m < stage1_mir_thresh s ∨ b < stage1_btd_thresh s) →
      stage1_tests kervals stdvals (some m) (some b) vid (some s) lsm
        do_lsm_mask p = 0) ∧
    (stage1_mir_thresh s ≤ m →
      counter_mir kervals stdvals (some m) (some s)
        = kern_votes kervals stdvals (some s) + 1) ∧
    (m < stage1_mir_thresh s →
      counter_mir kervals stdvals (some m) (some s) = 0) ∧
    (stage1_btd_thresh s ≤ b →
      counter_btd kervals stdvals (some m) (some b) (some s)
        = counter_mir kervals stdvals (some m) (some s) + 1) ∧
    (b < stage1_btd_thresh s →
      counter_btd kervals stdvals (some m) (some b) (some s) = 0) := by
  have hmt : mir_thresh_opt (some s) = some (stage1_mir_thresh s) := rfl
  have hbt : btd_thresh_opt (some s) = some (stage1_btd_thresh s) := rfl
  have cmir_pass : stage1_mir_thresh s ≤ m →
      counter_mir kervals stdvals (some m) (some s)
        = kern_votes kervals stdvals (some s) + 1 := by
    intro h
    unfold counter_mir
    rw [hmt, if_pos]
    simp [nanGe, h]
  have cmir_fail : m < stage1_mir_thresh s →
      counter_mir kervals stdvals (some m) (some s) = 0 := by
    intro h
    unfold counter_mir
    rw [hmt, if_neg]
    simp [nanGe, not_le.mpr h]
  have cbtd_pass : stage1_btd_thresh s ≤ b →
      counter_btd kervals stdvals (some m) (some b) (some s)
        = counter_mir kervals stdvals (some m) (some s) + 1 := by
    intro h
    unfold counter_btd
    rw [hbt, if_pos]
    simp [nanGe, h]
  have cbtd_fail : b < stage1_btd_thresh s →
      counter_btd kervals stdvals (some m) (some b) (some s) = 0 := by
    intro h
    unfold counter_btd
    rw [hbt, if_neg]
    simp [nanGe, not_le.mpr h]
  refine ⟨?_, cmir_pass, cmir_fail, cbtd_pass, cbtd_fail⟩
  rintro (h | h)
  · refine stage1_zero_of_counter_btd_le_one kervals stdvals (some m) (some b)
      vid (some s) lsm do_lsm_mask p hp ?_
    have h0 := cmir_fail h
    have h1 := counter_btd_le kervals stdvals (some m) (some b) (some s)
    omega
  · refine stage1_zero_of_counter_btd_le_one kervals stdvals (some m) (some b)
      vid (some s) lsm do_lsm_mask p hp ?_
    rw [cbtd_fail h]
    omega

/-- Witness for C1: at sza = 0 the MIR threshold is 310.5 K; a pixel with
mir_bt = 250 K fails the gate and is excluded from the mask even though it
passed the single kernel test supplied. -/
theorem stage1_hard_gate_witness :
    2 ≤ 5 ∧ (250 : ℚ) < stage1_mir_thresh 0 ∧
    stage1_tests [some 100] [some 1] (some 250) (some 400) (some 1) (some 0)
      (some 2) true 5 = 0 := by
  have h1 : (250 : ℚ) < stage1_mir_thresh 0 := by
    norm_num [stage1_mir_thresh, set_initial_thresholds, adj_thresh,
      mir_thresh_bt, mir_thresh_sza_adj, mir_thresh_limit]
  exact ⟨by norm_num, h1,
    (stage1_hard_gate [some 100] [some 1] (some 1) (some 2) true 250 400 0 5
      (by norm_num)).1 (Or.inl h1)⟩

/-- C9 counterexample: invalid cells are not propagated.  At a pixel whose
MIR radiance is invalid, compute_fire_datasets stores the valid value 0 in
MIR_RAD_NO_IR (np.where(isfinite, ., 0)), and at a pixel whose MIR BT is
invalid, stage1_tests emits the valid candidate-mask value 0, not an invalid
cell, contradicting the claimed invariant. -/
theorem invalid_cells_not_propagated_cex :
    mir_diffrad none (some 1) = some 0 ∧
    (some (0:ℚ)) ≠ (none : Option ℚ) ∧
    stage1_tests [] [] none (some 400) (some 1) (some 0) (some 2) true 5 = 0 := by
  refine ⟨rfl, by simp, ?_⟩
  refine stage1_zero_of_counter_btd_le_one [] [] none (some 400) (some 1)
    (some 0) (some 2) true 5 (by norm_num) ?_
  have h0 := counter_mir_none [] [] (some (0:ℚ))
  have h1 := counter_btd_le [] [] none (some 400) (some (0:ℚ))
  omega

/-- C9 amended: invalidity is absorbed, not propagated: for every pixel with
an invalid MIR input, the derived MIR_RAD_NO_IR cell is the valid value 0 and
the stage 1 candidate-mask cell is the valid value 0 (NaN fails every
threshold comparison), for any kernel votes and any other inputs. -/
theorem invalid_cells_amended (exp_rad : Option ℚ) (kervals stdvals : List (Option ℚ))
    (btd vid sza lsm : Option ℚ) (do_lsm_mask : Bool) (p : ℕ) (hp : 2 ≤ p) :
    mir_diffrad none exp_rad = some 0 ∧
    stage1_tests kervals stdvals none btd vid sza lsm do_lsm_mask p = 0 := by
  constructor
  · cases exp_rad <;> rfl
  · refine stage1_zero_of_counter_btd_le_one kervals stdvals none btd vid sza
      lsm do_lsm_mask p hp ?_
    have h0 := counter_mir_none kervals stdvals sza
    have h1 := counter_btd_le kervals stdvals none btd sza
    omega

/-- Witness for C9 amended: a concrete pixel with invalid MIR input. -/
theorem invalid_cells_amended_witness :
    2 ≤ 5 ∧
    mir_diffrad none (some 3) = some 0 ∧
    stage1_tests [some 7] [some 1] none (some 2) (some 1) (some 10) (some 2)
      true 5 = 0 :=
  ⟨by norm_num,
   invalid_cells_amended (some 3) [some 7] [some 1] (some 2) (some 1)
     (some 10) (some 2) true 5 (by norm_num)⟩

theorem comp_stat_eq_clip (x a b : ℚ) (hab : a < b) :
    comp_stat x a b = clip_ramp x a b := by
  have hba : 0 < b - a := sub_pos.mpr hab
  unfold comp_stat clip_ramp
  by_cases hbx : b < x
  · rw [if_pos hbx]
    have h1 : (1:ℚ) ≤ (x - a) / (b - a) := ((one_lt_div hba).mpr (by linarith)).le
    rw [min_eq_left h1, max_eq_right zero_le_one]
  · rw [if_neg hbx]
    by_cases hxa : x < a
    · rw [if_pos hxa]
      have h1 : (x - a) / (b - a) < 0 := div_neg_of_neg_of_pos (by linarith) hba
      rw [min_eq_right (by linarith), max_eq_left h1.le]
    · rw [if_neg hxa]
      have h0 : (0:ℚ) ≤ (x - a) / (b - a) :=
        div_nonneg (by linarith [not_lt.mp hxa]) hba.le
      have h1 : (x - a) / (b - a) ≤ 1 :=
        (div_le_one hba).mpr (by linarith [not_lt.mp hbx])
      rw [min_eq_right h1, max_eq_right h0]

theorem comp_stat_mem (x a b : ℚ) (hab : a < b) :
    0 ≤ comp_stat x a b ∧ comp_stat x a b ≤ 1 := by
  rw [comp_stat_eq_clip x a b hab]
  unfold clip_ramp
  exact ⟨le_max_left 0 _, max_le zero_le_one (min_le_left 1 _)⟩

theorem sza_clip_le (sza : ℚ) : sza_clip sza ≤ 60 := by
  unfold sza_clip
  split
  · exact le_refl 60
  · exact le_of_not_lt (by assumption)

theorem stage5_c1_bounds (sza : ℚ) : stage5_min_c1 sza < stage5_max_c1 sza := by
  have h := sza_clip_le sza
  unfold stage5_min_c1 stage5_max_c1
  linarith

theorem stage5_c3_bounds (sza : ℚ) : stage5_min_c3 sza < stage5_max_c3 sza := by
  have h := sza_clip_le sza
  unfold stage5_min_c3 stage5_max_c3
  linarith

theorem prod5_mem {c1 c2 c3 c4 c5 : ℚ}
    (h1 : 0 ≤ c1 ∧ c1 ≤ 1) (h2 : 0 ≤ c2 ∧ c2 ≤ 1) (h3 : 0 ≤ c3 ∧ c3 ≤ 1)
    (h4 : 0 ≤ c4 ∧ c4 ≤ 1) (h5 : 0 ≤ c5 ∧ c5 ≤ 1) :
    0 ≤ c1 * c2 * c3 * c4 * c5 ∧ c1 * c2 * c3 * c4 * c5 ≤ 1 := by
  constructor
  · exact mul_nonneg (mul_nonneg (mul_nonneg (mul_nonneg h1.1 h2.1) h3.1) h4.1) h5.1
  · have h12 : c1 * c2 ≤ 1 := mul_le_one₀ h1.2 h2.1 h2.2
    have h123 : c1 * c2 * c3 ≤ 1 := mul_le_one₀ h12 h3.1 h3.2
    have h1234 : c1 * c2 * c3 * c4 ≤ 1 := mul_le_one₀ h123 h4.1 h4.2
    exact mul_le_one₀ h1234 h5.1 h5.2

theorem stage5_prod_mem (btd mea_btd std_btd bt_mir mea_mir std_mir sza nwin ncld nwat : ℚ) :
    0 ≤ stage5_prod btd mea_btd std_btd bt_mir mea_mir std_mir sza nwin ncld nwat ∧
    stage5_prod btd mea_btd std_btd bt_mir mea_mir std_mir sza nwin ncld nwat ≤ 1 := by
  have h1 := comp_stat_mem bt_mir _ _ (stage5_c1_bounds sza)
  have h2 := comp_stat_mem ((bt_mir - mea_mir) / std_mir) (9 / 10) 6 (by norm_num)
  have h3 := comp_stat_mem ((btd - mea_btd) / std_btd) _ _ (stage5_c3_bounds sza)
  have h4 := comp_stat_mem (ncld / (nwin / 2)) 0 1 (by norm_num)
  have h5 := comp_stat_mem (nwat / (nwin / 2)) 0 1 (by norm_num)
  have h4' : 0 ≤ stage5_c4 ncld nwin ∧ stage5_c4 ncld nwin ≤ 1 := by
    unfold stage5_c4
    exact ⟨by linarith [h4.2], by linarith [h4.1]⟩
  have h5' : 0 ≤ stage5_c5 nwat nwin ∧ stage5_c5 nwat nwin ≤ 1 := by
    unfold stage5_c5
    exact ⟨by linarith [h5.2], by linarith [h5.1]⟩
  exact prod5_mem h1 h2 h3 h4' h5'

/-- C2 amended: for finite inputs with valid window statistics, do_stage5 is
the fifth root of the product of the five comp_stat components, each equal to
the spec's clipped ramp; the confidence lies in [0,1] and is exactly 0
whenever any single component is 0.  (The unavailable-window-stats clause of
the claim is refuted separately.) -/
theorem do_stage5_spec (btd mea_btd std_btd bt_mir mea_mir std_mir sza nwin ncld nwat : ℚ)
    (hsm : std_mir ≠ 0) (hsb : std_btd ≠ 0) (hnw : 0 < nwin) :
    do_stage5 btd mea_btd std_btd bt_mir mea_mir std_mir sza nwin ncld nwat
      = ((clip_ramp bt_mir (stage5_min_c1 sza) (stage5_max_c1 sza) *
          clip_ramp ((bt_mir - mea_mir) / std_mir) (9 / 10) 6 *
          clip_ramp ((btd - mea_btd) / std_btd) (stage5_min_c3 sza) (stage5_max_c3 sza) *
          (1 - clip_ramp (ncld / (nwin / 2)) 0 1) *
          (1 - clip_ramp (nwat / (nwin / 2)) 0 1) : ℚ) : ℝ) ^ ((1:ℝ) / 5) ∧
    0 ≤ do_stage5 btd mea_btd std_btd bt_mir mea_mir std_mir sza nwin ncld nwat ∧
    do_stage5 btd mea_btd std_btd bt_mir mea_mir std_mir sza nwin ncld nwat ≤ 1 ∧
    ((stage5_c1 bt_mir sza = 0 ∨ stage5_c2 bt_mir mea_mir std_mir = 0 ∨
      stage5_c3 btd mea_btd std_btd sza = 0 ∨ stage5_c4 ncld nwin = 0 ∨
      stage5_c5 nwat nwin = 0) →
      do_stage5 btd mea_btd std_btd bt_mir mea_mir std_mir sza nwin ncld nwat = 0) := by
  have hprod := stage5_prod_mem btd mea_btd std_btd bt_mir mea_mir std_mir sza nwin ncld nwat
  have hc0 : (0:ℝ) ≤ (stage5_prod btd mea_btd std_btd bt_mir mea_mir std_mir sza nwin ncld nwat : ℝ) := by
    exact_mod_cast hprod.1
  have hc1 : (stage5_prod btd mea_btd std_btd bt_mir mea_mir std_mir sza nwin ncld nwat : ℝ) ≤ 1 := by
    exact_mod_cast hprod.2
  refine ⟨?_, ?_, ?_, ?_⟩
  · unfold do_stage5 stage5_prod stage5_c1 stage5_c2 stage5_c3 stage5_c4 stage5_c5
    rw [comp_stat_eq_clip bt_mir _ _ (stage5_c1_bounds sza),
      comp_stat_eq_clip ((bt_mir - mea_mir) / std_mir) (9 / 10) 6 (by norm_num),
      comp_stat_eq_clip ((btd - mea_btd) / std_btd) _ _ (stage5_c3_bounds sza),
      comp_stat_eq_clip (ncld / (nwin / 2)) 0 1 (by norm_num),
      comp_stat_eq_clip (nwat / (nwin / 2)) 0 1 (by norm_num)]
  · exact Real.rpow_nonneg hc0 _
  · exact Real.rpow_le_one hc0 hc1 (by norm_num)
  · intro h
    have hp : stage5_prod btd mea_btd std_btd bt_mir mea_mir std_mir sza nwin ncld nwat = 0 := by
      unfold stage5_prod
      rcases h with h | h | h | h | h <;> rw [h] <;> ring
    unfold do_stage5
    rw [hp]
    push_cast
    exact Real.zero_rpow (by norm_num)

/-- Witness for C2 amended: a daytime pixel with valid statistics
(std = 1, nwin = 10) has its confidence inside [0,1]. -/
theorem do_stage5_spec_witness :
    (1:ℚ) ≠ 0 ∧ (0:ℚ) < 10 ∧
    0 ≤ do_stage5 300 0 1 320 0 1 30 10 0 0 ∧
    do_stage5 300 0 1 320 0 1 30 10 0 0 ≤ 1 :=
  ⟨by norm_num, by norm_num,
   (do_stage5_spec 300 0 1 320 0 1 30 10 0 0 (by norm_num) (by norm_num)
     (by norm_num)).2.1,
   (do_stage5_spec 300 0 1 320 0 1 30 10 0 0 (by norm_num) (by norm_num)
     (by norm_num)).2.2.1⟩

/-- C2 counterexample: at a pixel whose window statistics are unavailable
(sentinel nwin = 0, with no cloud or water counts), do_stage5 does not force
the confidence to 0: in this exact model the five ramps are all 1 (the ratio
ncld / (nwin/2) is the division 0/0, which is 0 here) and the returned
confidence is 1.  In the float code the same pixel evaluates 0.0/0.0 = NaN
and returns NaN; either way the result is not 0, refuting the clause that
unavailable window statistics give confidence exactly 0. -/
theorem do_stage5_sentinel_cex :
    do_stage5 400 0 1 330 0 1 0 0 0 0 = 1 ∧ (1:ℝ) ≠ 0 := by
  constructor
  · have hp : stage5_prod 400 0 1 330 0 1 0 0 0 0 = 1 := by
      norm_num [stage5_prod, stage5_c1, stage5_c2, stage5_c3, stage5_c4, stage5_c5,
        comp_stat, stage5_min_c1, stage5_max_c1, stage5_min_c3, stage5_max_c3,
        sza_clip]
    unfold do_stage5
    rw [hp]
    push_cast
    exact Real.one_rpow _
  · norm_num

theorem foldr_max_le_of (l : List ℚ) (c : ℚ) (h : ∀ x ∈ l, x ≤ c) :
    l.foldr max c ≤ c := by
  induction l with
  | nil => exact le_refl c
  | cons a t ih =>
    exact max_le (h a (List.mem_cons_self a t))
      (ih fun x hx => h x (List.mem_cons_of_mem a hx))

theorem le_foldr_max_init (l : List ℚ) (c : ℚ) : c ≤ l.foldr max c := by
  induction l with
  | nil => exact le_refl c
  | cons a t ih => exact le_trans ih (le_max_right a _)

theorem mem_le_foldr_max (l : List ℚ) (c x : ℚ) (hx : x ∈ l) :
    x ≤ l.foldr max c := by
  induction l with
  | nil => cases hx
  | cons a t ih =>
    rcases List.mem_cons.mp hx with rfl | hx
    · exact le_max_left x _
    · exact le_trans (ih hx) (le_max_right a _)

theorem sum_eq_count_one (l : List ℚ) (h : ∀ x ∈ l, x = 0 ∨ x = 1) :
    l.sum = (l.count 1 : ℚ) := by
  induction l with
  | nil => simp
  | cons a t ih =>
    have ht := ih fun x hx => h x (List.mem_cons_of_mem a hx)
    rcases h a (List.mem_cons_self a t) with rfl | rfl
    · rw [List.sum_cons, List.count_cons]
      simp [ht]
    · rw [List.sum_cons, List.count_cons]
      push_cast
      rw [ht]
      simp [add_comm]

/-- C7: in the 3x3 de-duplication step, a window sum of 1 means exactly one
candidate in the window; a candidate pixel that is the only candidate in its
3x3 window is kept exactly when its vis-diff value is the window maximum
(the equality det_pos == det_max), and every pixel whose window sum is not 1
keeps its prior value. -/
theorem dedup_step_spec (vid dets : ℤ → ℤ → ℚ) (i j : ℤ)
    (hbin : ∀ a b, dets a b = 0 ∨ dets a b = 1) :
    (det_sum dets i j = 1 ↔ (win3 dets i j).count 1 = 1) ∧
    (vid i j = det_max vid i j ↔ ∀ x ∈ win3 vid i j, x ≤ vid i j) ∧
    (dets i j = 1 → det_sum dets i j = 1 →
      dedup_step vid dets i j = if vid i j = det_max vid i j then 1 else 0) ∧
    (det_sum dets i j ≠ 1 → dedup_step vid dets i j = dets i j) := by
  have hwin : ∀ x ∈ win3 dets i j, x = 0 ∨ x = 1 := by
    intro x hx
    obtain ⟨d, _, rfl⟩ := List.mem_map.mp hx
    exact hbin _ _
  refine ⟨?_, ?_, ?_, ?_⟩
  · unfold det_sum
    rw [sum_eq_count_one (win3 dets i j) hwin]
    exact_mod_cast Iff.rfl
  · constructor
    · intro h x hx
      have h2 : x ≤ det_max vid i j := mem_le_foldr_max (win3 vid i j) (vid i j) x hx
      rw [← h] at h2
      exact h2
    · intro h
      exact le_antisymm (le_foldr_max_init _ _) (foldr_max_le_of _ _ h)
  · intro _ hs
    unfold dedup_step
    simp only [hs, if_pos]
  · intro hs
    unfold dedup_step
    simp only [if_neg hs]

/-- Witness for C7: a lone candidate at the origin whose vis-diff is the
window maximum is evaluated by the equality rule. -/
theorem dedup_step_spec_witness :
    (∀ a b : ℤ, (if a = 0 ∧ b = 0 then (1:ℚ) else 0) = 0 ∨
      (if a = 0 ∧ b = 0 then (1:ℚ) else 0) = 1) ∧
    (fun a b : ℤ => if a = 0 ∧ b = 0 then (1:ℚ) else 0) 0 0 = 1 ∧
    det_sum (fun a b : ℤ => if a = 0 ∧ b = 0 then (1:ℚ) else 0) 0 0 = 1 ∧
    dedup_step (fun a b : ℤ => if a = 0 ∧ b = 0 then (5:ℚ) else 0)
      (fun a b : ℤ => if a = 0 ∧ b = 0 then (1:ℚ) else 0) 0 0
      = if (fun a b : ℤ => if a = 0 ∧ b = 0 then (5:ℚ) else 0) 0 0
          = det_max (fun a b : ℤ => if a = 0 ∧ b = 0 then (5:ℚ) else 0) 0 0
        then 1 else 0 := by
  have hbin : ∀ a b : ℤ, (if a = 0 ∧ b = 0 then (1:ℚ) else 0) = 0 ∨
      (if a = 0 ∧ b = 0 then (1:ℚ) else 0) = 1 := by
    intro a b
    by_cases h : a = 0 ∧ b = 0
    · right
      rw [if_pos h]
    · left
      rw [if_neg h]
  have hdets : (fun a b : ℤ => if a = 0 ∧ b = 0 then (1:ℚ) else 0) 0 0 = 1 := by
    norm_num
  have hsum : det_sum (fun a b : ℤ => if a = 0 ∧ b = 0 then (1:ℚ) else 0) 0 0 = 1 := by
    norm_num [det_sum, win3, offsets3]
  exact ⟨hbin, hdets, hsum,
    (dedup_step_spec (fun a b : ℤ => if a = 0 ∧ b = 0 then (5:ℚ) else 0)
      (fun a b : ℤ => if a = 0 ∧ b = 0 then (1:ℚ) else 0) 0 0 hbin).2.2.1 hdets hsum⟩

theorem list_sum_range {M : Type} [AddCommMonoid M] (n : ℕ) (f : ℕ → M) :
    ((List.range n).map f).sum = ∑ i in Finset.range n, f i := by
  induction n with
  | zero => simp
  | succ n ih =>
    rw [List.range_succ, List.map_append, List.sum_append, Finset.sum_range_succ, ih]
    simp

theorem bin_idx_lt (x : ℚ) (k : ℕ) (h : bin_idx x = some k) : k < 800 := by
  unfold bin_idx at h
  split at h
  · have h1 : min (Int.toNat ⌊400 * x⌋) 799 = k := Option.some_inj.mp h
    have h2 := min_le_right (Int.toNat ⌊400 * x⌋) 799
    omega
  · cases h

set_option maxRecDepth 4000 in
theorem hist_total_eq (l : List ℚ) :
    hist_total l = l.countP fun x => (bin_idx x).isSome := by
  unfold hist_total
  rw [list_sum_range]
  induction l with
  | nil => simp [hist_count]
  | cons x t ih =>
    rw [List.countP_cons, ← ih]
    have hsplit : ∀ i ∈ Finset.range 800, hist_count (x :: t) i
        = hist_count t i + if bin_idx x = some i then 1 else 0 := by
      intro i _
      unfold hist_count
      rw [List.countP_cons]
      by_cases h : bin_idx x = some i
      · simp [h]
      · simp [h]
    have hstep : ∑ i in Finset.range 800, hist_count (x :: t) i
        = (∑ i in Finset.range 800, hist_count t i)
          + ∑ i in Finset.range 800, (if bin_idx x = some i then 1 else 0) := by
      rw [Finset.sum_congr rfl hsplit, Finset.sum_add_distrib]
    have hX : (∑ i in Finset.range 800, if bin_idx x = some i then 1 else 0)
        = if (bin_idx x).isSome = true then 1 else 0 := by
      cases hbx : bin_idx x with
      | none => simp
      | some k =>
        have hk : k < 800 := bin_idx_lt x k hbx
        simp only [Option.some.injEq, Option.isSome_some, if_true]
        rw [Finset.sum_ite_eq]
        simp [Finset.mem_range.mpr hk]
    exact hstep.trans
      (congrArg (fun z => (∑ i in Finset.range 800, hist_count t i) + z) hX)

theorem hist_list_sum (l : List ℚ) (h : hist_total l ≠ 0) :
    (hist_list l).sum = 1 := by
  unfold hist_list hist_freq
  rw [list_sum_range, ← Finset.sum_div, ← Nat.cast_sum]
  have hcast : ∑ i in Finset.range 800, hist_count l i = hist_total l := by
    unfold hist_total
    rw [list_sum_range]
  rw [hcast, div_self]
  exact_mod_cast h

theorem hist_max_pos (l : List ℚ) (h : hist_total l ≠ 0) :
    ¬ (hist_list l).foldr max 0 ≤ 0 := by
  have hex : ∃ i ∈ Finset.range 800, hist_count l i ≠ 0 := by
    by_contra hc
    push_neg at hc
    have h0 : hist_total l = 0 := by
      unfold hist_total
      rw [list_sum_range]
      exact Finset.sum_eq_zero hc
    exact h h0
  obtain ⟨i, hi, hc⟩ := hex
  have hpos : 0 < hist_freq l i := by
    unfold hist_freq
    apply div_pos
    · exact_mod_cast Nat.pos_of_ne_zero hc
    · exact_mod_cast Nat.pos_of_ne_zero h
  have hmem : hist_freq l i ∈ hist_list l := by
    unfold hist_list
    exact List.mem_map.mpr ⟨i, List.mem_range.mpr (Finset.mem_range.mp hi), rfl⟩
  intro hle
  have := mem_le_foldr_max (hist_list l) 0 _ hmem
  linarith

theorem walkAux_found (thr : ℚ) (hs : List ℚ) (i0 : ℕ) (c0 : ℚ)
    (h : ∃ k, k < hs.length ∧ thr < c0 + ((hs.take (k + 1)).sum)) :
    ∃ k, walkAux thr i0 c0 hs = i0 + k ∧ k < hs.length ∧
      thr < c0 + ((hs.take (k + 1)).sum) ∧
      ∀ j, j < k → c0 + ((hs.take (j + 1)).sum) ≤ thr := by
  induction hs generalizing i0 c0 with
  | nil =>
    obtain ⟨k, hk, _⟩ := h
    simp at hk
  | cons a t ih =>
    by_cases hfirst : thr < c0 + a
    · refine ⟨0, ?_, ?_, ?_, ?_⟩
      · unfold walkAux
        rw [if_pos hfirst]
        omega
      · simp
      · simpa using hfirst
      · intro j hj
        omega
    · obtain ⟨k, hk, hsum⟩ := h
      rcases k with _ | k
      · exact absurd (by simpa using hsum) hfirst
      · have hk' : k < t.length := by
          simp at hk
          omega
        have hs' : ∃ m, m < t.length ∧ thr < (c0 + a) + ((t.take (m + 1)).sum) := by
          refine ⟨k, hk', ?_⟩
          rw [List.take_succ_cons, List.sum_cons] at hsum
          linarith
        obtain ⟨m, hw, hm, hsum', hmin'⟩ := ih (i0 + 1) (c0 + a) hs'
        refine ⟨m + 1, ?_, ?_, ?_, ?_⟩
        · unfold walkAux
          rw [if_neg hfirst, hw]
          omega
        · simp
          omega
        · rw [List.take_succ_cons, List.sum_cons]
          linarith
        · intro j hj
          rcases j with _ | j
          · simpa using not_lt.mp hfirst
          · have := hmin' j (by omega)
            rw [List.take_succ_cons, List.sum_cons]
            linarith

theorem take_hist_sum (l : List ℚ) (k : ℕ) (hk : k + 1 ≤ 800) :
    ((hist_list l).take (k + 1)).sum = cum_freq l k := by
  unfold hist_list cum_freq
  rw [← List.map_take, List.take_range, min_eq_left hk, list_sum_range]

/-- C6: compute_background_rad selects exactly the night
(sza strictly greater than the threshold) strictly-positive radiances inside
the default range (0, 2) into its 800-bin histogram, and returns the left
edge i/400 of the first bin at which the cumulative normalized frequency
exceeds the configured fraction. -/
theorem compute_background_rad_spec (data : List (ℚ × ℚ)) (sza_thr thr : ℚ)
    (hthr : thr < 1) (hne : hist_total (night_positive data sza_thr) ≠ 0) :
    hist_total (night_positive data sza_thr)
      = (data.filter fun p => sza_thr < p.2 ∧ 0 < p.1 ∧ p.1 ≤ 2).length ∧
    ∃ i : ℕ, i < 800 ∧
      compute_background_rad data sza_thr thr = (i : ℚ) / 400 ∧
      thr < cum_freq (night_positive data sza_thr) i ∧
      ∀ j : ℕ, j < i → cum_freq (night_positive data sza_thr) j ≤ thr := by
  constructor
  · rw [hist_total_eq]
    unfold night_positive
    rw [List.countP_filter, List.countP_map, List.countP_filter,
      ← List.countP_eq_length_filter]
    apply List.countP_congr
    intro p _
    by_cases hc : 0 ≤ p.1 ∧ p.1 ≤ 2
    · simp only [Function.comp, bin_idx, if_pos hc, Option.isSome_some,
        Bool.true_and, Bool.and_eq_true, decide_eq_true_eq]
      constructor
      · rintro ⟨h1, h2⟩
        exact ⟨h2, h1, hc.2⟩
      · rintro ⟨h2, h1, _⟩
        exact ⟨h1, h2⟩
    · simp only [Function.comp, bin_idx, if_neg hc, Option.isSome_none,
        Bool.false_and, Bool.and_eq_true, decide_eq_true_eq]
      constructor
      · intro hfalse
        exact absurd hfalse Bool.false_ne_true
      · rintro ⟨h2, h1, h3⟩
        exact (hc ⟨h1.le, h3⟩).elim
  · have hmax := hist_max_pos (night_positive data sza_thr) hne
    have hlen : (hist_list (night_positive data sza_thr)).length = 800 := by
      simp [hist_list]
    have hfull : ∃ k, k < (hist_list (night_positive data sza_thr)).length ∧
        thr < 0 + (((hist_list (night_positive data sza_thr)).take (k + 1)).sum) := by
      refine ⟨799, by omega, ?_⟩
      rw [List.take_of_length_le (by omega),
        hist_list_sum (night_positive data sza_thr) hne]
      linarith
    obtain ⟨k, hw, hk, hsum, hmin⟩ :=
      walkAux_found thr (hist_list (night_positive data sza_thr)) 0 0 hfull
    rw [hlen] at hk
    refine ⟨k, hk, ?_, ?_, ?_⟩
    · simp only [compute_background_rad]
      rw [if_neg hmax, hw]
      norm_num
    · rw [← take_hist_sum (night_positive data sza_thr) k (by omega)]
      linarith
    · intro j hj
      have hj' := hmin j hj
      rw [take_hist_sum (night_positive data sza_thr) j (by omega)] at hj'
      linarith

/-- Witness for C6: a single night pixel of radiance 1 falls in bin 400, so
the histogram total is 1 and the counting conjunct evaluates. -/
theorem compute_background_rad_spec_witness :
    (99 / 100 : ℚ) < 1 ∧
    hist_total (night_positive [((1 : ℚ), (100 : ℚ))] 97) ≠ 0 ∧
    hist_total (night_positive [((1 : ℚ), (100 : ℚ))] 97)
      = (([((1 : ℚ), (100 : ℚ))]).filter fun p => 97 < p.2 ∧ 0 < p.1 ∧ p.1 ≤ 2).length := by
  have hne : hist_total (night_positive [((1 : ℚ), (100 : ℚ))] 97) ≠ 0 := by
    rw [hist_total_eq]
    norm_num [night_positive, bin_idx]
  exact ⟨by norm_num, hne,
    (compute_background_rad_spec [((1 : ℚ), (100 : ℚ))] 97 (99 / 100)
      (by norm_num) hne).1⟩

theorem compute_background_rad_degenerate (data : List (ℚ × ℚ)) (s t : ℚ)
    (h : hist_total (night_positive data s) = 0) :
    compute_background_rad data s t = -999 := by
  have hall : ∀ x ∈ hist_list (night_positive data s), x ≤ 0 := by
    intro x hx
    obtain ⟨i, _, rfl⟩ := List.mem_map.mp hx
    unfold hist_freq
    rw [h]
    simp
  simp only [compute_background_rad]
  rw [if_pos (foldr_max_le_of _ _ hall)]

/-- C8: run_basic_night_detection returns an all-zero single mask on both
degenerate paths and raises no error (the embedding is a total function):
when no pixel of the scene has sza exceeding the night threshold the result
is the zero mask regardless of the radiance data (the histogram threshold is
never computed), and when compute_background_rad returns the sentinel -999
the result is again the zero mask. -/
theorem run_basic_night_detection_degenerate (r c : ℕ)
    (vi2 sza vid pfp : ℤ → ℤ → ℚ) (opts : NightOpts) :
    ((∀ p ∈ grid_pixels r c, sza p.1 p.2 ≤ opts.sza_thresh) →
      run_basic_night_detection r c vi2 sza vid pfp opts
        = NightResult.single zero_grid) ∧
    (compute_background_rad (grid_list r c vi2 sza) opts.sza_thresh (99 / 100) = -999 →
      run_basic_night_detection r c vi2 sza vid pfp opts
        = NightResult.single zero_grid) := by
  constructor
  · intro h
    unfold run_basic_night_detection
    rw [if_neg]
    intro hc
    rw [List.any_eq_true] at hc
    obtain ⟨p, hp, hlt⟩ := hc
    exact absurd (h p hp) (not_le.mpr (of_decide_eq_true hlt))
  · intro hb
    unfold run_basic_night_detection
    by_cases hany : ((grid_pixels r c).any fun p =>
        opts.sza_thresh < sza p.1 p.2) = true
    · rw [if_pos hany]
      simp only [hb, if_pos]
    · rw [if_neg hany]

/-- Witness for C8: a 1x1 daytime scene (sza = 0) takes the first degenerate
path, and a 1x1 night scene with negative radiance makes the histogram
degenerate and takes the second. -/
theorem run_basic_night_detection_degenerate_witness :
    (∀ p ∈ grid_pixels 1 1, zero_grid p.1 p.2 ≤ default_night_opts.sza_thresh) ∧
    run_basic_night_detection 1 1 zero_grid zero_grid zero_grid zero_grid
      default_night_opts = NightResult.single zero_grid ∧
    compute_background_rad
      (grid_list 1 1 (fun _ _ => -1) (fun _ _ => 100)) default_night_opts.sza_thresh
      (99 / 100) = -999 ∧
    run_basic_night_detection 1 1 (fun _ _ => -1) (fun _ _ => 100) zero_grid
      zero_grid default_night_opts = NightResult.single zero_grid := by
  have hall : ∀ p ∈ grid_pixels 1 1, zero_grid p.1 p.2 ≤ default_night_opts.sza_thresh := by
    intro p _
    norm_num [zero_grid, default_night_opts]
  have hdeg : compute_background_rad
      (grid_list 1 1 (fun _ _ => (-1 : ℚ)) (fun _ _ => (100 : ℚ)))
      default_night_opts.sza_thresh (99 / 100) = -999 := by
    apply compute_background_rad_degenerate
    rw [hist_total_eq]
    have hnp : night_positive
        (grid_list 1 1 (fun _ _ => (-1 : ℚ)) (fun _ _ => (100 : ℚ)))
        default_night_opts.sza_thresh = [] := by
      norm_num [night_positive, grid_list, grid_pixels, default_night_opts,
        List.range_succ]
    rw [hnp]
    rfl
  exact ⟨hall,
    (run_basic_night_detection_degenerate 1 1 zero_grid zero_grid zero_grid
      zero_grid default_night_opts).1 hall,
    hdeg,
    (run_basic_night_detection_degenerate 1 1 (fun _ _ => -1) (fun _ _ => 100)
      zero_grid zero_grid default_night_opts).2 hdeg⟩

end PYFires
